import Mathlib

/-!
Verification of the PoetryHub server (`server/index.js`).

The server is an Express/Mongoose application over three document
collections (User, Poem, Comment).  We embed the documents as Lean
structures and each route handler as a pure function on an explicit
state; MongoDB ObjectIds are modelled as `Nat`, JS numbers that hold
counters as `Int` (they may in principle go negative, and the code
guards `likes_count` with `Math.max(0, ...)`).

Mongoose array operations are modelled as follows:
  * `arr.push(v)`   — append `v` at the end (`++ [v]`);
  * `arr.pull(v)`   — remove every element equal to `v` (`filter (· != v)`);
  * `arr.includes(v)` — membership test.
`findByIdAndUpdate` / `findByIdAndDelete` act on the document with the
given `_id`; since `_id`s are unique in a collection we model them as a
`map`/`filter` over the id.
-/

/-- Poem document (`poemSchema`, server/index.js lines 64–75).
`createdAt` is the mongoose timestamp. -/
structure Poem where
  id : Nat
  title : String
  content : String
  author : Nat
  category : String
  tags : List String
  image_url : String
  likes : List Nat
  likes_count : Int
  comments_count : Int
  is_featured : Bool
  createdAt : Nat
deriving Repr, DecidableEq

/-- Response body of `POST /api/poems/:id/like` (lines 379–382). -/
structure LikeResponse where
  liked : Bool
  likes_count : Int
deriving Repr, DecidableEq

/-- `POST /api/poems/:id/like` (lines 358–386), acting on the poem it
found: toggle membership of `userId` in `likes` and adjust
`likes_count` by ±1 (`Math.max(0, likes_count - 1)` on removal). -/
def toggleLike (userId : Nat) (p : Poem) : Poem × LikeResponse :=
  if userId ∈ p.likes then
    let p' := { p with likes := p.likes.filter (fun x => x != userId),
                       likes_count := max 0 (p.likes_count - 1) }
    (p', { liked := false, likes_count := p'.likes_count })
  else
    let p' := { p with likes := p.likes ++ [userId],
                       likes_count := p.likes_count + 1 }
    (p', { liked := true, likes_count := p'.likes_count })

/-- The cardinality of the set of user ids stored in the `likes` array
(duplicates, if any, counted once). -/
def likesCard (p : Poem) : Nat := p.likes.toFinset.card

/-- The data-model invariant of the spec: `likes_count` equals the
cardinality of the likes set. -/
def likesInv (p : Poem) : Prop := p.likes_count = (likesCard p : Int)

instance (p : Poem) : Decidable (likesInv p) := by
  unfold likesInv; infer_instance

/-- Applying a whole sequence of like toggles (by the listed users, in
order) to a poem. -/
def toggleLikeAll (ops : List Nat) (p : Poem) : Poem :=
  ops.foldl (fun q u => (toggleLike u q).1) p

theorem toFinset_filter_ne (l : List Nat) (u : Nat) :
    (l.filter (fun x => x != u)).toFinset = l.toFinset.erase u := by
  ext x
  simp [List.mem_filter, Finset.mem_erase, and_comm]

theorem toFinset_append_singleton (l : List Nat) (u : Nat) :
    (l ++ [u]).toFinset = insert u l.toFinset := by
  ext x
  simp [or_comm]

/-- One like-toggle preserves the `likes_count = |likes|` invariant. -/
theorem toggleLike_likesInv (u : Nat) (p : Poem) (h : likesInv p) :
    likesInv (toggleLike u p).1 := by
  unfold likesInv likesCard at *
  unfold toggleLike
  by_cases hm : u ∈ p.likes
  · simp only [if_pos hm]
    have hfin : u ∈ p.likes.toFinset := List.mem_toFinset.mpr hm
    have hcard : 1 ≤ p.likes.toFinset.card :=
      Finset.card_pos.mpr ⟨u, hfin⟩
    simp only [toFinset_filter_ne, Finset.card_erase_of_mem hfin]
    omega
  · simp only [if_neg hm]
    have hfin : u ∉ p.likes.toFinset := fun hc => hm (List.mem_toFinset.mp hc)
    simp only [toFinset_append_singleton, Finset.card_insert_of_not_mem hfin]
    omega

/-- C1: for every poem whose `likes_count` equals the cardinality of its
likes set, after any sequence of like-toggle operations
(`POST /api/poems/:id/like`) by any users, `likes_count` still equals
the cardinality of the likes set. -/
theorem likesInv_preserved_by_toggles (ops : List Nat) (p : Poem)
    (h : likesInv p) : likesInv (toggleLikeAll ops p) := by
  induction ops generalizing p with
  | nil => exact h
  | cons u rest ih =>
      exact ih _ (toggleLike_likesInv u p h)

/-- A concrete poem used by the witnesses below. -/
def samplePoem : Poem :=
  { id := 1, title := "t", content := "c", author := 7,
    category := "love", tags := ["moon"], image_url := "",
    likes := [3, 4], likes_count := 2, comments_count := 0,
    is_featured := false, createdAt := 0 }

/-- Witness for C1 at a concrete poem and toggle sequence. -/
theorem likesInv_preserved_by_toggles_witness :
    likesInv samplePoem ∧ likesInv (toggleLikeAll [3, 5, 5, 4] samplePoem) :=
  ⟨by decide, likesInv_preserved_by_toggles [3, 5, 5, 4] _ (by decide)⟩

/-- C2: for every poem (satisfying the data-model invariant
`likes_count = |likes|`) and every user, performing the like toggle
twice in succession returns the poem to its original liked state for
that user and to its original `likes_count`. -/
theorem toggleLike_twice_restores (u : Nat) (p : Poem) (h : likesInv p) :
    (u ∈ (toggleLike u (toggleLike u p).1).1.likes ↔ u ∈ p.likes) ∧
    (toggleLike u (toggleLike u p).1).1.likes_count = p.likes_count := by
  unfold likesInv likesCard at h
  by_cases hm : u ∈ p.likes
  · have hfin : u ∈ p.likes.toFinset := List.mem_toFinset.mpr hm
    have hcard : 1 ≤ p.likes.toFinset.card := Finset.card_pos.mpr ⟨u, hfin⟩
    have h1 : (toggleLike u p).1 =
        { p with likes := p.likes.filter (fun x => x != u),
                 likes_count := max 0 (p.likes_count - 1) } := by
      unfold toggleLike; simp [hm]
    have hnot : u ∉ p.likes.filter (fun x => x != u) := by
      simp [List.mem_filter]
    have h2 : (toggleLike u (toggleLike u p).1).1 =
        { p with likes := p.likes.filter (fun x => x != u) ++ [u],
                 likes_count := max 0 (p.likes_count - 1) + 1 } := by
      rw [h1]; unfold toggleLike; simp [hnot]
    rw [h2]
    refine ⟨by simp [hm], ?_⟩
    show max 0 (p.likes_count - 1) + 1 = p.likes_count
    omega
  · have h1 : (toggleLike u p).1 =
        { p with likes := p.likes ++ [u],
                 likes_count := p.likes_count + 1 } := by
      unfold toggleLike; simp [hm]
    have hin : u ∈ p.likes ++ [u] := by simp
    have h2 : (toggleLike u (toggleLike u p).1).1 =
        { p with likes := (p.likes ++ [u]).filter (fun x => x != u),
                 likes_count := max 0 (p.likes_count + 1 - 1) } := by
      rw [h1]; unfold toggleLike; simp [hin]
    rw [h2]
    refine ⟨by simp [List.mem_filter, hm], ?_⟩
    show max 0 (p.likes_count + 1 - 1) = p.likes_count
    omega

/-- Witness for C2 at a concrete poem and user. -/
theorem toggleLike_twice_restores_witness :
    likesInv samplePoem ∧
    ((3 ∈ (toggleLike 3 (toggleLike 3 samplePoem).1).1.likes ↔
      3 ∈ samplePoem.likes) ∧
     (toggleLike 3 (toggleLike 3 samplePoem).1).1.likes_count =
      samplePoem.likes_count) :=
  ⟨by decide, toggleLike_twice_restores 3 _ (by decide)⟩

/-- User document (`userSchema`, server/index.js lines 51–59). -/
structure User where
  id : Nat
  username : String
  email : String
  password : String
  bio : String
  avatar_url : String
  followers : List Nat
  following : List Nat
deriving Repr, DecidableEq

/-- The user collection: a partial map from `_id` to the document
(`User.findById`). -/
def UserStore : Type := Nat → Option User

/-- Saving a user document back into the collection (`user.save()`). -/
def setUser (store : UserStore) (i : Nat) (u : User) : UserStore :=
  fun j => if j = i then some u else store j

/-- Result of `POST /api/users/:id/follow`: either a JSON error with its
HTTP status, or `{ following: bool }`. -/
inductive FollowResult where
  | err (status : Nat) (message : String)
  | ok (following : Bool)
deriving Repr, DecidableEq

/-- `POST /api/users/:id/follow` (lines 513–546): reject self-follow
(400), 404 when the target user does not exist, 500 when the
authenticated user's document is missing (the JS dereferences
`currentUser.following` without a null check, and the thrown TypeError
is caught by the handler's catch-all), otherwise toggle the follow
relation on both documents and save current user then target user. -/
def toggleFollow (store : UserStore) (currentUserId targetUserId : Nat) :
    FollowResult × UserStore :=
  if targetUserId = currentUserId then
    (.err 400 "Cannot follow yourself", store)
  else
    match store targetUserId with
    | none => (.err 404 "User not found", store)
    | some targetUser =>
      match store currentUserId with
      | none => (.err 500 "server error", store)
      | some currentUser =>
        if targetUserId ∈ currentUser.following then
          let cu := { currentUser with
            following := currentUser.following.filter (fun x => x != targetUserId) }
          let tu := { targetUser with
            followers := targetUser.followers.filter (fun x => x != currentUserId) }
          (.ok false, setUser (setUser store currentUserId cu) targetUserId tu)
        else
          let cu := { currentUser with
            following := currentUser.following ++ [targetUserId] }
          let tu := { targetUser with
            followers := targetUser.followers ++ [currentUserId] }
          (.ok true, setUser (setUser store currentUserId cu) targetUserId tu)

/-- The mutual-dual invariant of the data model: for distinct users
A, B present in the store, A is in B's followers iff B is in A's
following. -/
def mutualDual (store : UserStore) : Prop :=
  ∀ a b ua ub, a ≠ b → store a = some ua → store b = some ub →
    (a ∈ ub.followers ↔ b ∈ ua.following)

theorem mem_filter_ne_iff (x v : Nat) (l : List Nat) (hx : x ≠ v) :
    (x ∈ l.filter (fun y => y != v)) ↔ x ∈ l := by
  simp [List.mem_filter, hx]

/-- Both toggle branches update exactly the current user's `following`
(only at the target id) and the target's `followers` (only at the
current id), keeping the two memberships synchronized; any such update
preserves the mutual-dual invariant. -/
theorem setPair_mutualDual (store : UserStore) (cuId tuId : Nat)
    (currentUser targetUser cu' tu' : User)
    (hne : ¬ tuId = cuId)
    (hC : store cuId = some currentUser) (hT : store tuId = some targetUser)
    (h : mutualDual store)
    (hcuFollowers : cu'.followers = currentUser.followers)
    (htuFollowing : tu'.following = targetUser.following)
    (hsync : cuId ∈ tu'.followers ↔ tuId ∈ cu'.following)
    (htuOther : ∀ x, ¬ x = cuId → (x ∈ tu'.followers ↔ x ∈ targetUser.followers))
    (hcuOther : ∀ y, ¬ y = tuId → (y ∈ cu'.following ↔ y ∈ currentUser.following)) :
    mutualDual (setUser (setUser store cuId cu') tuId tu') := by
  intro a b ua ub hab ha hb
  simp only [setUser] at ha hb
  by_cases hat : a = tuId
  · rw [if_pos hat] at ha
    have hua : tu' = ua := Option.some.inj ha
    by_cases hbt : b = tuId
    · exact absurd (hat.trans hbt.symm) hab
    · by_cases hbc : b = cuId
      · rw [if_neg hbt, if_pos hbc] at hb
        have hub : cu' = ub := Option.some.inj hb
        rw [← hua, ← hub, hcuFollowers, htuFollowing, hat, hbc]
        exact h tuId cuId targetUser currentUser hne hT hC
      · rw [if_neg hbt, if_neg hbc] at hb
        rw [← hua, htuFollowing, hat]
        exact h tuId b targetUser ub (by omega) hT hb
  · by_cases hac : a = cuId
    · rw [if_neg hat, if_pos hac] at ha
      have hua : cu' = ua := Option.some.inj ha
      by_cases hbt : b = tuId
      · rw [if_pos hbt] at hb
        have hub : tu' = ub := Option.some.inj hb
        rw [← hua, ← hub, hac, hbt]
        exact hsync
      · by_cases hbc : b = cuId
        · exact absurd (hac.trans hbc.symm) hab
        · rw [if_neg hbt, if_neg hbc] at hb
          rw [← hua, hcuOther b hbt, hac]
          exact h cuId b currentUser ub (by omega) hC hb
    · rw [if_neg hat, if_neg hac] at ha
      by_cases hbt : b = tuId
      · rw [if_pos hbt] at hb
        have hub : tu' = ub := Option.some.inj hb
        rw [← hub, htuOther a hac, hbt]
        exact h a tuId ua targetUser (by omega) ha hT
      · by_cases hbc : b = cuId
        · rw [if_neg hbt, if_pos hbc] at hb
          have hub : cu' = ub := Option.some.inj hb
          rw [← hub, hcuFollowers, hbc]
          exact h a cuId ua currentUser (by omega) ha hC
        · rw [if_neg hbt, if_neg hbc] at hb
          exact h a b ua ub hab ha hb

/-- C3: the toggle-follow operation preserves the mutual-dual
invariant of the data model (A ∈ B.followers ↔ B ∈ A.following for all
distinct present users), assuming it held before the call. -/
theorem toggleFollow_mutualDual (store : UserStore) (cuId tuId : Nat)
    (h : mutualDual store) : mutualDual (toggleFollow store cuId tuId).2 := by
  unfold toggleFollow
  by_cases hself : tuId = cuId
  · simp only [if_pos hself]
    exact h
  · simp only [if_neg hself]
    cases hT : store tuId with
    | none => exact h
    | some targetUser =>
      cases hC : store cuId with
      | none => exact h
      | some currentUser =>
        by_cases hmem : tuId ∈ currentUser.following
        · simp only [if_pos hmem]
          exact setPair_mutualDual store cuId tuId currentUser targetUser _ _
            hself hC hT h rfl rfl
            (by simp [List.mem_filter])
            (fun x hx => by simp [List.mem_filter, hx])
            (fun y hy => by simp [List.mem_filter, hy])
        · simp only [if_neg hmem]
          exact setPair_mutualDual store cuId tuId currentUser targetUser _ _
            hself hC hT h rfl rfl
            (by simp)
            (fun x hx => by simp [hx])
            (fun y hy => by simp [hy])

/-- Whether user `a` currently follows user `b` according to the store
(the `following` array of `a`'s document). -/
def follows (store : UserStore) (a b : Nat) : Bool :=
  match store a with
  | some u => u.following.contains b
  | none => false

/-- A concrete store with two users and no follow relation. -/
def userA : User :=
  { id := 1, username := "ada", email := "ada@x.io", password := "h1",
    bio := "", avatar_url := "", followers := [], following := [] }

/-- Second sample user. -/
def userB : User :=
  { id := 2, username := "bob", email := "bob@x.io", password := "h2",
    bio := "", avatar_url := "", followers := [], following := [] }

/-- Store holding exactly `userA` (id 1) and `userB` (id 2). -/
def freshStore : UserStore := fun j =>
  if j = 1 then some userA else if j = 2 then some userB else none

theorem freshStore_mutualDual : mutualDual freshStore := by
  have key : ∀ j u, freshStore j = some u →
      u.followers = [] ∧ u.following = [] := by
    intro j u hj
    unfold freshStore at hj
    split at hj
    · cases hj; exact ⟨rfl, rfl⟩
    · split at hj
      · cases hj; exact ⟨rfl, rfl⟩
      · exact Option.noConfusion hj
  intro a b ua ub hab ha hb
  rw [(key b ub hb).1, (key a ua ha).2]
  simp

/-- Witness for C3: the invariant is preserved across a concrete
follow toggle on a two-user store. -/
theorem toggleFollow_mutualDual_witness :
    mutualDual freshStore ∧ mutualDual (toggleFollow freshStore 1 2).2 :=
  ⟨freshStore_mutualDual,
   toggleFollow_mutualDual freshStore 1 2 freshStore_mutualDual⟩

/-- C4: a follow request whose target id equals the authenticated
user's id is rejected with HTTP 400 and the message
`Cannot follow yourself`, and the user collection — in particular both
users' follower/following sets — is left unchanged. -/
theorem toggleFollow_self_rejected (store : UserStore) (uid : Nat) :
    toggleFollow store uid uid =
      (.err 400 "Cannot follow yourself", store) := by
  unfold toggleFollow
  simp

/-- Counterexample to C5 as stated: starting from two users with no
follow relation, after one call A (id 1) follows B (id 2), but after
two calls A does not follow B — the result of two calls differs from
the result of one call. -/
theorem follow_twice_differs_from_once :
    follows (toggleFollow freshStore 1 2).2 1 2 = true ∧
    follows (toggleFollow (toggleFollow freshStore 1 2).2 1 2).2 1 2 = false := by
  constructor
  · rfl
  · rfl

/-- C5 (amended): for distinct users A and B where A does not follow B,
invoking the follow operation twice in a row returns the A→B follow
relation to its original state: afterwards A again does not follow B
(the second call unfollows; the toggle is an involution, not
idempotent). -/
theorem toggleFollow_twice_unfollows (store : UserStore) (a b : Nat)
    (ua ub : User) (hba : ¬ b = a)
    (ha : store a = some ua) (hb : store b = some ub)
    (hnot : b ∉ ua.following) :
    follows (toggleFollow (toggleFollow store a b).2 a b).2 a b = false := by
  have hab : ¬ a = b := fun e => hba e.symm
  have h1 : (toggleFollow store a b).2 =
      setUser (setUser store a
        { ua with following := ua.following ++ [b] }) b
        { ub with followers := ub.followers ++ [a] } := by
    unfold toggleFollow
    simp only [if_neg hba, hb, ha, if_neg hnot]
  rw [h1]
  have hs1b : setUser (setUser store a
      { ua with following := ua.following ++ [b] }) b
      { ub with followers := ub.followers ++ [a] } b =
      some { ub with followers := ub.followers ++ [a] } := by
    simp [setUser]
  have hs1a : setUser (setUser store a
      { ua with following := ua.following ++ [b] }) b
      { ub with followers := ub.followers ++ [a] } a =
      some { ua with following := ua.following ++ [b] } := by
    simp [setUser, hab]
  have hmem2 : b ∈ ({ ua with following := ua.following ++ [b] } : User).following := by
    simp
  unfold toggleFollow
  simp only [if_neg hba, hs1b, hs1a, if_pos hmem2]
  unfold follows
  simp [setUser, hab, List.mem_filter]

/-- Witness for the amended C5 at the concrete two-user store. -/
theorem toggleFollow_twice_unfollows_witness :
    (¬ (2 : Nat) = 1 ∧ freshStore 1 = some userA ∧
     freshStore 2 = some userB ∧ 2 ∉ userA.following) ∧
    follows (toggleFollow (toggleFollow freshStore 1 2).2 1 2).2 1 2 = false :=
  ⟨⟨by decide, rfl, rfl, by decide⟩,
   toggleFollow_twice_unfollows freshStore 1 2 userA userB
     (by decide) rfl rfl (by decide)⟩

/-- Comment document (`commentSchema`, server/index.js lines 80–88). -/
structure Comment where
  id : Nat
  poem : Nat
  author : Nat
  content : String
  parent : Option Nat
  replies : List Nat
  createdAt : Nat
deriving Repr, DecidableEq

/-- The poem and comment collections together with a counter providing
fresh `_id`s / creation timestamps (both monotone in Mongo). -/
structure ServerState where
  poems : List Poem
  comments : List Comment
  nextId : Nat
deriving Repr, DecidableEq

/-- `DELETE /api/poems/:id` (lines 336–355): 404 when the poem does not
exist, 403 when the requester is not its author, otherwise
`findByIdAndDelete` the poem and `deleteMany` all comments whose `poem`
field is that id. -/
def deletePoem (st : ServerState) (uid pid : Nat) :
    Except (Nat × String) String × ServerState :=
  match st.poems.find? (fun p => p.id == pid) with
  | none => (.error (404, "Poem not found"), st)
  | some poem =>
    if poem.author ≠ uid then (.error (403, "Not authorized"), st)
    else
      (.ok "Poem deleted successfully",
       { st with poems := st.poems.filter (fun p => p.id != pid),
                 comments := st.comments.filter (fun c => c.poem != pid) })

/-- `POST /api/poems/:id/comments` (lines 424–454): create the comment
(`parent := parentId || null`, `replies` defaulting to `[]`), then if a
parent id was supplied `$push` the new id onto the parent's `replies`,
then `$inc` the poem's `comments_count` by 1.  The handler checks
neither that the poem nor that the parent exists; the two
`findByIdAndUpdate` calls are no-ops on a missing id. -/
def addComment (st : ServerState) (uid pid : Nat) (content : String)
    (parentId : Option Nat) : Comment × ServerState :=
  let c : Comment := { id := st.nextId, poem := pid, author := uid,
                       content := content, parent := parentId,
                       replies := [], createdAt := st.nextId }
  let comments1 := st.comments ++ [c]
  let comments2 := match parentId with
    | some pp => comments1.map (fun d =>
        if d.id == pp then { d with replies := d.replies ++ [c.id] } else d)
    | none => comments1
  let poems2 := st.poems.map (fun q =>
    if q.id == pid then { q with comments_count := q.comments_count + 1 } else q)
  (c, { poems := poems2, comments := comments2, nextId := st.nextId + 1 })

/-- `GET /api/poems/:id/comments` (lines 405–422): find the comments of
the poem whose `parent` is null, sort them by `createdAt` ascending,
and populate each one's `replies` array with the referenced comment
documents (a missing reference is dropped by populate). -/
def getComments (st : ServerState) (pid : Nat) : List (Comment × List Comment) :=
  let tops := st.comments.filter (fun c => c.poem == pid && c.parent == none)
  let sorted := tops.insertionSort (fun a b => a.createdAt ≤ b.createdAt)
  sorted.map (fun c =>
    (c, c.replies.filterMap (fun rid => st.comments.find? (fun d => d.id == rid))))

/-- Request body of `PUT /api/poems/:id`; `none` models an absent
field. -/
structure EditBody where
  title : Option String
  content : Option String
  category : Option String
  tags : Option String
deriving Repr, DecidableEq

/-- JS `x || old` for a string field: an absent field or the empty
string (both falsy) keep the old value. -/
def jsOr (v : Option String) (old : String) : String :=
  match v with
  | some s => if s = "" then old else s
  | none => old

/-- The field updates of `PUT /api/poems/:id` (lines 320–325) applied
to the poem that was found: `poem.title = title || poem.title` etc.,
and `tags ? tags.split(',').map(trim) : poem.tags`. -/
def editApply (p : Poem) (b : EditBody) : Poem :=
  { p with
    title := jsOr b.title p.title,
    content := jsOr b.content p.content,
    category := jsOr b.category p.category,
    tags := match b.tags with
      | some s => if s = "" then p.tags
                  else ((s.splitOn ",").map (fun t => t.trim))
      | none => p.tags }

/-- `PUT /api/poems/:id` (lines 308–334): 404 when the poem does not
exist, 403 when the requester is not its author, otherwise apply the
field updates and save. -/
def editPoem (st : ServerState) (uid pid : Nat) (b : EditBody) :
    Except (Nat × String) Poem × ServerState :=
  match st.poems.find? (fun p => p.id == pid) with
  | none => (.error (404, "Poem not found"), st)
  | some poem =>
    if poem.author ≠ uid then (.error (403, "Not authorized"), st)
    else
      let p' := editApply poem b
      (.ok p',
       { st with poems := st.poems.map (fun q => if q.id == pid then p' else q) })

/-- C6: a successful delete removes the poem and every comment whose
poem reference is that poem's id (replies included — a reply's `poem`
field is also the poem's id); no comment referencing the deleted poem
remains. -/
theorem deletePoem_removes_all (st : ServerState) (uid pid : Nat)
    (msg : String) (st' : ServerState)
    (h : deletePoem st uid pid = (.ok msg, st')) :
    (∀ p ∈ st'.poems, p.id ≠ pid) ∧ (∀ c ∈ st'.comments, c.poem ≠ pid) := by
  unfold deletePoem at h
  cases hfind : st.poems.find? (fun p => p.id == pid) with
  | none => simp [hfind] at h
  | some poem =>
    simp only [hfind] at h
    split at h
    · simp at h
    · have hst := congrArg Prod.snd h
      simp only at hst
      subst hst
      refine ⟨fun p hp => ?_, fun c hc => ?_⟩
      · have := (List.mem_filter.mp hp).2
        simpa using this
      · have := (List.mem_filter.mp hc).2
        simpa using this

/-- A concrete top-level comment on `samplePoem`. -/
def sampleComment : Comment :=
  { id := 10, poem := 1, author := 3, content := "nice", parent := none,
    replies := [11], createdAt := 5 }

/-- A concrete reply to `sampleComment`. -/
def sampleReply : Comment :=
  { id := 11, poem := 1, author := 4, content := "agree", parent := some 10,
    replies := [], createdAt := 6 }

/-- A concrete server state used by the witnesses below. -/
def sampleState : ServerState :=
  { poems := [samplePoem], comments := [sampleComment, sampleReply], nextId := 20 }

/-- Witness for C6: deleting `samplePoem` (id 1) by its author (id 7)
removes the poem, the comment and the reply. -/
theorem deletePoem_removes_all_witness :
    (∀ p ∈ (deletePoem sampleState 7 1).2.poems, p.id ≠ 1) ∧
    (∀ c ∈ (deletePoem sampleState 7 1).2.comments, c.poem ≠ 1) :=
  deletePoem_removes_all sampleState 7 1 "Poem deleted successfully"
    (deletePoem sampleState 7 1).2 rfl

theorem addComment_comments_some (st : ServerState) (uid pid : Nat)
    (content : String) (pp : Nat) :
    (addComment st uid pid content (some pp)).2.comments =
      (st.comments ++ [(addComment st uid pid content (some pp)).1]).map
        (fun d => if d.id == pp
          then { d with replies :=
                  d.replies ++ [(addComment st uid pid content (some pp)).1.id] }
          else d) := rfl

theorem addComment_poems (st : ServerState) (uid pid : Nat)
    (content : String) (parentId : Option Nat) :
    (addComment st uid pid content parentId).2.poems =
      st.poems.map (fun q => if q.id == pid
        then { q with comments_count := q.comments_count + 1 } else q) := rfl

/-- C7: creating a comment leaves the new comment's `replies` empty;
with a parent id, the parent's `replies` list gets the new id appended;
the poem's `comments_count` goes up by exactly 1 in every case (reply
or top-level); and no operation other than poem deletion decrements
`comments_count` — the only other poem-mutating handlers, the like
toggle and the poem edit, leave it unchanged. -/
theorem addComment_spec (st : ServerState) (uid pid : Nat) (content : String)
    (parentId : Option Nat) :
    (addComment st uid pid content parentId).1.replies = [] ∧
    (∀ pp, parentId = some pp → ∀ d ∈ st.comments, d.id = pp →
      { d with replies := d.replies ++
          [(addComment st uid pid content parentId).1.id] }
        ∈ (addComment st uid pid content parentId).2.comments) ∧
    (∀ q ∈ st.poems, q.id = pid →
      { q with comments_count := q.comments_count + 1 }
        ∈ (addComment st uid pid content parentId).2.poems) ∧
    (∀ u p, ((toggleLike u p).1).comments_count = p.comments_count) ∧
    (∀ p b, (editApply p b).comments_count = p.comments_count) := by
  refine ⟨rfl, ?_, ?_, ?_, ?_⟩
  · intro pp hpp d hd hid
    subst hpp
    rw [addComment_comments_some]
    have hmem : d ∈ st.comments ++ [(addComment st uid pid content (some pp)).1] :=
      List.mem_append_left _ hd
    have hmap := List.mem_map_of_mem (fun d => if d.id == pp
      then { d with replies :=
              d.replies ++ [(addComment st uid pid content (some pp)).1.id] }
      else d) hmem
    simpa [hid] using hmap
  · intro q hq hid
    rw [addComment_poems]
    have hmap := List.mem_map_of_mem (fun q => if q.id == pid
      then { q with comments_count := q.comments_count + 1 } else q) hq
    simpa [hid] using hmap
  · intro u p
    unfold toggleLike
    split <;> rfl
  · intro p b
    rfl

/-- Witness for C7: adding a reply to `sampleComment` in the concrete
state appends the new id to its replies list. -/
theorem addComment_spec_witness :
    { sampleComment with replies := sampleComment.replies ++
        [(addComment sampleState 7 1 "lovely" (some 10)).1.id] } ∈
      (addComment sampleState 7 1 "lovely" (some 10)).2.comments :=
  ((addComment_spec sampleState 7 1 "lovely" (some 10)).2.1) 10 rfl
    sampleComment (by decide) (by decide)

theorem getComments_eq (st : ServerState) (pid : Nat) :
    getComments st pid =
      ((st.comments.filter (fun c => c.poem == pid && c.parent == none)).insertionSort
          (fun a b => a.createdAt ≤ b.createdAt)).map
        (fun c => (c, c.replies.filterMap
          (fun rid => st.comments.find? (fun d => d.id == rid)))) := rfl

/-- C8: the comments query returns exactly the comments of the poem
whose `parent` is null (so a reply never appears as a top-level
entry), ordered by `createdAt` ascending, and each entry's replies are
expanded exactly one level: the expansion contains only comment
documents of the store referenced by the top-level comment's `replies`
array, and — given that comment `_id`s are pairwise distinct, which
Mongo guarantees — every store comment referenced by the entry's
`replies` array appears in the expansion. -/
theorem getComments_spec (st : ServerState) (pid : Nat) :
    (∀ e ∈ getComments st pid,
        e.1 ∈ st.comments ∧ e.1.poem = pid ∧ e.1.parent = none) ∧
    (∀ c ∈ st.comments, c.poem = pid → c.parent = none →
        c ∈ (getComments st pid).map Prod.fst) ∧
    List.Pairwise (fun e f => e.1.createdAt ≤ f.1.createdAt)
      (getComments st pid) ∧
    (∀ e ∈ getComments st pid, ∀ r ∈ e.2,
        r ∈ st.comments ∧ r.id ∈ e.1.replies) ∧
    ((st.comments.map Comment.id).Nodup →
      ∀ e ∈ getComments st pid, ∀ r ∈ st.comments,
        r.id ∈ e.1.replies → r ∈ e.2) := by
  refine ⟨?_, ?_, ?_, ?_, ?_⟩
  · intro e he
    rw [getComments_eq] at he
    obtain ⟨c, hc, rfl⟩ := List.mem_map.mp he
    have hc' := (List.mem_insertionSort _).mp hc
    have := List.mem_filter.mp hc'
    refine ⟨this.1, ?_, ?_⟩
    · have := this.2
      simp at this
      exact this.1
    · have := this.2
      simp at this
      exact this.2
  · intro c hc h1 h2
    have hmap : (getComments st pid).map Prod.fst =
        (st.comments.filter (fun c => c.poem == pid && c.parent == none)).insertionSort
          (fun a b => a.createdAt ≤ b.createdAt) := by
      rw [getComments_eq]
      generalize (st.comments.filter
        (fun c => c.poem == pid && c.parent == none)).insertionSort
          (fun a b => a.createdAt ≤ b.createdAt) = l
      induction l with
      | nil => rfl
      | cons a t ih => simp only [List.map_cons, ih]
    rw [hmap]
    rw [List.mem_insertionSort]
    exact List.mem_filter.mpr ⟨hc, by simp [h1, h2]⟩
  · rw [getComments_eq, List.pairwise_map]
    haveI : IsTotal Comment (fun a b => a.createdAt ≤ b.createdAt) :=
      ⟨fun a b => le_total _ _⟩
    haveI : IsTrans Comment (fun a b => a.createdAt ≤ b.createdAt) :=
      ⟨fun a b c hab hbc => le_trans hab hbc⟩
    have hs := List.sorted_insertionSort
      (fun a b : Comment => a.createdAt ≤ b.createdAt)
      (st.comments.filter (fun c => c.poem == pid && c.parent == none))
    exact hs.imp (fun hab => hab)
  · intro e he r hr
    rw [getComments_eq] at he
    obtain ⟨c, hc, rfl⟩ := List.mem_map.mp he
    simp only at hr
    obtain ⟨rid, hrid, hfound⟩ := List.mem_filterMap.mp hr
    refine ⟨List.mem_of_find?_eq_some hfound, ?_⟩
    have := List.find?_some hfound
    simp only [beq_iff_eq] at this
    rw [this]
    simpa using hrid
  · intro hnodup e he r hr hridmem
    rw [getComments_eq] at he
    obtain ⟨c, hc, rfl⟩ := List.mem_map.mp he
    show r ∈ c.replies.filterMap
      (fun rid => st.comments.find? (fun d => d.id == rid))
    have hex : ∃ x, x ∈ st.comments ∧ (x.id == r.id) = true :=
      ⟨r, hr, by simp⟩
    obtain ⟨r', hfound⟩ :=
      Option.isSome_iff_exists.mp (List.find?_isSome.mpr hex)
    have hr'mem := List.mem_of_find?_eq_some hfound
    have hr'id := List.find?_some hfound
    have hrr : r' = r :=
      List.inj_on_of_nodup_map hnodup hr'mem hr (by simpa using hr'id)
    rw [hrr] at hfound
    exact List.mem_filterMap.mpr ⟨r.id, hridmem, hfound⟩

/-- Witness for C8: in the concrete state, the listing for poem 1
contains the entry for `sampleComment`, and `sampleReply` appears
nested one level inside that entry's expansion. -/
theorem getComments_spec_witness :
    (sampleComment, [sampleReply]) ∈ getComments sampleState 1 ∧
    sampleComment ∈ (getComments sampleState 1).map Prod.fst ∧
    sampleReply ∈ ((sampleComment, [sampleReply]) : Comment × List Comment).2 :=
  ⟨by decide,
   (getComments_spec sampleState 1).2.1 sampleComment (by decide) rfl rfl,
   (getComments_spec sampleState 1).2.2.2.2 (by decide)
     (sampleComment, [sampleReply]) (by decide) sampleReply (by decide)
     (by decide)⟩

/-- C10: a successful poem edit leaves `author`, `likes`, `likes_count`,
`comments_count`, `is_featured` and `image_url` unchanged, and an
absent or empty `title`/`content`/`category` in the body keeps the
previous value (JS `field || poem.field` treats the empty string as
falsy). -/
theorem editPoem_frame (st : ServerState) (uid pid : Nat) (b : EditBody)
    (poem p' : Poem) (st' : ServerState)
    (hfind : st.poems.find? (fun p => p.id == pid) = some poem)
    (h : editPoem st uid pid b = (.ok p', st')) :
    p'.author = poem.author ∧ p'.likes = poem.likes ∧
    p'.likes_count = poem.likes_count ∧
    p'.comments_count = poem.comments_count ∧
    p'.is_featured = poem.is_featured ∧ p'.image_url = poem.image_url ∧
    ((b.title = none ∨ b.title = some "") → p'.title = poem.title) ∧
    ((b.content = none ∨ b.content = some "") → p'.content = poem.content) ∧
    ((b.category = none ∨ b.category = some "") → p'.category = poem.category) := by
  unfold editPoem at h
  simp only [hfind] at h
  split at h
  · simp at h
  · have hp : p' = editApply poem b := by
      have hfst := congrArg Prod.fst h
      simp only at hfst
      exact (Except.ok.inj hfst).symm
    subst hp
    refine ⟨rfl, rfl, rfl, rfl, rfl, rfl, ?_, ?_, ?_⟩
    · rintro (ht | ht) <;> simp [editApply, jsOr, ht]
    · rintro (ht | ht) <;> simp [editApply, jsOr, ht]
    · rintro (ht | ht) <;> simp [editApply, jsOr, ht]

/-- A concrete edit body with empty title, absent content and a
non-empty category. -/
def sampleEdit : EditBody :=
  { title := some "", content := none, category := some "dark",
    tags := some "a, b" }

/-- Witness for C10 at the concrete state and edit body. -/
theorem editPoem_frame_witness :
    (editApply samplePoem sampleEdit).likes_count = samplePoem.likes_count ∧
    (editApply samplePoem sampleEdit).title = samplePoem.title ∧
    (editApply samplePoem sampleEdit).content = samplePoem.content :=
  ⟨(editPoem_frame sampleState 7 1 sampleEdit samplePoem
      (editApply samplePoem sampleEdit) (editPoem sampleState 7 1 sampleEdit).2
      rfl rfl).2.2.1,
   (editPoem_frame sampleState 7 1 sampleEdit samplePoem
      (editApply samplePoem sampleEdit) (editPoem sampleState 7 1 sampleEdit).2
      rfl rfl).2.2.2.2.2.2.1 (Or.inr rfl),
   (editPoem_frame sampleState 7 1 sampleEdit samplePoem
      (editApply samplePoem sampleEdit) (editPoem sampleState 7 1 sampleEdit).2
      rfl rfl).2.2.2.2.2.2.2.1 (Or.inl rfl)⟩

/-- `startsWithB needle hay`: `needle` is an initial run of `hay`. -/
def startsWithB : List Char → List Char → Bool
  | [], _ => true
  | _ :: _, [] => false
  | a :: as, b :: bs => a == b && startsWithB as bs

/-- `subStr needle hay`: `needle` occurs contiguously in `hay`. -/
def subStr (needle : List Char) : List Char → Bool
  | [] => needle.isEmpty
  | c :: rest => startsWithB needle (c :: rest) || subStr needle rest

/-- `{ $regex: search, $options: 'i' }` applied to a field: the search
string is matched case-insensitively.  We model the regex as substring
containment after lowercasing, which is exact for search strings
without regex metacharacters. -/
def containsCI (hay pat : String) : Bool :=
  subStr (pat.data.map Char.toLower) (hay.data.map Char.toLower)

/-- The `$or` search clause of `GET /api/poems` (lines 212–218): the
search string occurs (case-insensitively) in the title, the content,
or some tag. -/
def matchesSearch (s : String) (p : Poem) : Bool :=
  containsCI p.title s || containsCI p.content s ||
    p.tags.any (fun t => containsCI t s)

/-- The query object of `GET /api/poems` (lines 206–218): an optional
category equality filter and an optional search clause. -/
def poemQueryFilter (category search : Option String)
    (poems : List Poem) : List Poem :=
  let q1 := match category with
    | some c => poems.filter (fun p => p.category == c)
    | none => poems
  match search with
  | some s => q1.filter (fun p => matchesSearch s p)
  | none => q1


/-- The sort order selected by the `sort` query parameter
(`switch (sort)`, lines 220–233); any other value falls through to the
default `createdAt` descending. -/
def sortRel (sort : String) (a b : Poem) : Prop :=
  if sort = "popular" then b.likes_count ≤ a.likes_count
  else if sort = "commented" then b.comments_count ≤ a.comments_count
  else if sort = "alphabetical" then a.title ≤ b.title
  else b.createdAt ≤ a.createdAt

instance (s : String) : DecidableRel (sortRel s) := by
  intro a b
  unfold sortRel
  infer_instance

/-- `GET /api/poems` (lines 202–245): filter, sort, then paginate —
Mongo applies `.skip((page - 1) * limit)` before `.limit(limit)`
regardless of chaining order.  `page` and `limit` are the coerced
numeric query parameters (defaults 1 and 20); Nat subtraction stands
in for `page - 1`, which Mongo would reject as a negative skip for
`page = 0`. -/
def listPoems (poems : List Poem) (category search : Option String)
    (sort : String) (limit page : Nat) : List Poem :=
  (((poemQueryFilter category search poems).insertionSort (sortRel sort)).drop
      ((page - 1) * limit)).take limit

theorem listPoems_eq (poems : List Poem) (category search : Option String)
    (sort : String) (limit page : Nat) :
    listPoems poems category search sort limit page =
      (((poemQueryFilter category search poems).insertionSort
        (sortRel sort)).drop ((page - 1) * limit)).take limit := rfl

theorem sortRel_popular_eq (a b : Poem) :
    sortRel "popular" a b = (b.likes_count ≤ a.likes_count) := rfl

theorem sortRel_commented_eq (a b : Poem) :
    sortRel "commented" a b = (b.comments_count ≤ a.comments_count) := rfl

theorem sortRel_alphabetical_eq (a b : Poem) :
    sortRel "alphabetical" a b = (a.title ≤ b.title) := rfl

theorem sortRel_recent_eq (a b : Poem) :
    sortRel "recent" a b = (b.createdAt ≤ a.createdAt) := rfl

theorem sortRel_trans (s : String) (a b c : Poem)
    (hab : sortRel s a b) (hbc : sortRel s b c) : sortRel s a c := by
  unfold sortRel at hab hbc ⊢
  by_cases h1 : s = "popular"
  · simp only [if_pos h1] at hab hbc ⊢
    omega
  · simp only [if_neg h1] at hab hbc ⊢
    by_cases h2 : s = "commented"
    · simp only [if_pos h2] at hab hbc ⊢
      omega
    · simp only [if_neg h2] at hab hbc ⊢
      by_cases h3 : s = "alphabetical"
      · simp only [if_pos h3] at hab hbc ⊢
        exact le_trans hab hbc
      · simp only [if_neg h3] at hab hbc ⊢
        omega

theorem sortRel_total (s : String) (a b : Poem) :
    sortRel s a b ∨ sortRel s b a := by
  unfold sortRel
  by_cases h1 : s = "popular"
  · simp only [if_pos h1]
    omega
  · simp only [if_neg h1]
    by_cases h2 : s = "commented"
    · simp only [if_pos h2]
      omega
    · simp only [if_neg h2]
      by_cases h3 : s = "alphabetical"
      · simp only [if_pos h3]
        exact le_total _ _
      · simp only [if_neg h3]
        omega

theorem poemQueryFilter_mem (category search : Option String)
    (poems : List Poem) (p : Poem)
    (hp : p ∈ poemQueryFilter category search poems) :
    p ∈ poems ∧ (∀ c, category = some c → p.category = c) ∧
    (∀ s, search = some s → matchesSearch s p = true) := by
  unfold poemQueryFilter at hp
  cases category with
  | none =>
    cases search with
    | none =>
      exact ⟨hp, fun c hc => Option.noConfusion hc,
        fun s hs => Option.noConfusion hs⟩
    | some s =>
      have h2 := List.mem_filter.mp hp
      exact ⟨h2.1, fun c hc => Option.noConfusion hc,
        fun s' hs' => by cases Option.some.inj hs'; exact h2.2⟩
  | some c =>
    cases search with
    | none =>
      have h1 := List.mem_filter.mp hp
      refine ⟨h1.1, fun c' hc' => ?_, fun s hs => Option.noConfusion hs⟩
      cases Option.some.inj hc'
      simpa using h1.2
    | some s =>
      have h2 := List.mem_filter.mp hp
      have h1 := List.mem_filter.mp h2.1
      refine ⟨h1.1, fun c' hc' => ?_, fun s' hs' => ?_⟩
      · cases Option.some.inj hc'
        simpa using h1.2
      · cases Option.some.inj hs'
        exact h2.2

/-- C9: the poem listing returns only poems passing the category
equality filter and the case-insensitive search; the result is ordered
by the selected sort key (popularity = likes descending, comment count
descending, alphabetical = title ascending, recency = creation time
descending); at most `limit` poems are returned; and the page is the
slice of the sorted filtered list starting after `(page-1)*limit`
entries. -/
theorem listPoems_spec (poems : List Poem) (category search : Option String)
    (sort : String) (limit page : Nat) :
    (∀ p ∈ listPoems poems category search sort limit page,
        p ∈ poems ∧ (∀ c, category = some c → p.category = c) ∧
        (∀ s, search = some s → matchesSearch s p = true)) ∧
    (sort = "popular" → List.Pairwise
        (fun a b : Poem => b.likes_count ≤ a.likes_count)
        (listPoems poems category search sort limit page)) ∧
    (sort = "commented" → List.Pairwise
        (fun a b : Poem => b.comments_count ≤ a.comments_count)
        (listPoems poems category search sort limit page)) ∧
    (sort = "alphabetical" → List.Pairwise
        (fun a b : Poem => a.title ≤ b.title)
        (listPoems poems category search sort limit page)) ∧
    (sort = "recent" → List.Pairwise
        (fun a b : Poem => b.createdAt ≤ a.createdAt)
        (listPoems poems category search sort limit page)) ∧
    (listPoems poems category search sort limit page).length ≤ limit ∧
    (∀ i, i < limit →
        (listPoems poems category search sort limit page)[i]? =
          ((poemQueryFilter category search poems).insertionSort
            (sortRel sort))[(page - 1) * limit + i]?) := by
  have hsubl : List.Sublist (listPoems poems category search sort limit page)
      ((poemQueryFilter category search poems).insertionSort (sortRel sort)) := by
    rw [listPoems_eq]
    exact (List.take_sublist _ _).trans (List.drop_sublist _ _)
  haveI : IsTotal Poem (sortRel sort) := ⟨fun a b => sortRel_total sort a b⟩
  haveI : IsTrans Poem (sortRel sort) := ⟨fun a b c => sortRel_trans sort a b c⟩
  have hsorted : ((poemQueryFilter category search poems).insertionSort
      (sortRel sort)).Pairwise (sortRel sort) :=
    List.sorted_insertionSort (sortRel sort) _
  have hpw : (listPoems poems category search sort limit page).Pairwise
      (sortRel sort) :=
    List.Pairwise.sublist hsubl hsorted
  refine ⟨?_, ?_, ?_, ?_, ?_, ?_, ?_⟩
  · intro p hp
    exact poemQueryFilter_mem category search poems p
      ((List.mem_insertionSort _).mp (hsubl.subset hp))
  · intro hs
    subst hs
    exact hpw.imp (fun hab => sortRel_popular_eq _ _ ▸ hab)
  · intro hs
    subst hs
    exact hpw.imp (fun hab => sortRel_commented_eq _ _ ▸ hab)
  · intro hs
    subst hs
    exact hpw.imp (fun hab => sortRel_alphabetical_eq _ _ ▸ hab)
  · intro hs
    subst hs
    exact hpw.imp (fun hab => sortRel_recent_eq _ _ ▸ hab)
  · rw [listPoems_eq, List.length_take]
    exact Nat.min_le_left _ _
  · intro i hi
    rw [listPoems_eq, List.getElem?_take_of_lt hi, List.getElem?_drop]

/-- A second concrete poem in another category. -/
def poemB : Poem :=
  { id := 2, title := "storm", content := "rain", author := 8,
    category := "war", tags := ["sea"], image_url := "",
    likes := [], likes_count := 0, comments_count := 1,
    is_featured := true, createdAt := 9 }

/-- Witness for C9 at a concrete listing query: a concrete poem is
returned for category `love` and search `MOON`, and the filters really
hold of it. -/
theorem listPoems_spec_witness :
    samplePoem ∈ listPoems [samplePoem, poemB]
        (some "love") (some "MOON") "popular" 10 1 ∧
    (samplePoem ∈ [samplePoem, poemB] ∧ samplePoem.category = "love" ∧
      matchesSearch "MOON" samplePoem = true) :=
  ⟨by decide,
   have X := (listPoems_spec [samplePoem, poemB] (some "love") (some "MOON")
      "popular" 10 1).1 samplePoem (by decide)
   ⟨X.1, X.2.1 "love" rfl, X.2.2 "MOON" rfl⟩⟩
